import Mathlib

set_option maxRecDepth 8192

/-!
Verification development for the goco commit-generation pipeline.

Go strings are modelled as `List Char`; a Go error value is modelled by the
inductive `GoErr`; fallible operations return `Except`.  External effects
(git subprocesses, provider network calls, the temp file and editor of the
interactive edit step) are supplied through explicit environment records, and
the pipeline additionally returns the trace of effect events it performed, so
that ordering properties can be stated.
-/

/-- Whitespace test used by the Go runtime for the code points that
`strings.Fields` and `strings.TrimSpace` treat as space (unicode.IsSpace on
the ASCII and Latin-1 range). -/
def goIsSpace (c : Char) : Bool :=
  c = ' ' || c = '\t' || c = '\n' || c = '\x0b' || c = '\x0c' || c = '\r' ||
    c = '\x85' || c = '\xa0'

/-- Model of Go `strings.TrimSpace`: drop whitespace from both ends. -/
def goTrimSpace (s : List Char) : List Char :=
  ((s.dropWhile goIsSpace).reverse.dropWhile goIsSpace).reverse

/-- Accumulator-style worker for `goFields`; `acc` holds the current field in
reverse order. -/
def goFieldsAux (acc : List Char) : List Char → List (List Char)
  | [] => if acc = [] then [] else [acc.reverse]
  | c :: cs =>
    if goIsSpace c then
      if acc = [] then goFieldsAux [] cs
      else acc.reverse :: goFieldsAux [] cs
    else goFieldsAux (c :: acc) cs

/-- Model of Go `strings.Fields`: split around every maximal run of
whitespace, returning the non-empty fields. -/
def goFields (s : List Char) : List (List Char) :=
  goFieldsAux [] s

/-- Model of Go `strings.TrimPrefix s pre`: remove `pre` when it is a prefix,
otherwise return the string unchanged. -/
def goTrimPre (pre s : List Char) : List Char :=
  if pre.isPrefixOf s then s.drop pre.length else s

/-- A Go error value.  `ext` is an opaque error produced outside this
repository (git exit status, network failure, file-system failure, form
library failure), carrying only its message; `msg` is an in-repository
`errors.New` / non-wrapping `fmt.Errorf`; `wrap` is `fmt.Errorf` with `%w`;
the three sentinels are the package-level variables of `cmd/errors.go`. -/
inductive GoErr where
  | ext (m : List Char)
  | msg (m : List Char)
  | wrap (pre : List Char) (inner : GoErr)
  | sentinelNoEditor
  | sentinelGitRepository
  | sentinelNoStagedFiles
deriving DecidableEq

/-- Model of `errors.Is e target` for targets that are sentinel values:
equality at the head or anywhere down the `%w` unwrap chain. -/
def errIs : GoErr → GoErr → Bool
  | .wrap pre inner, t => (GoErr.wrap pre inner = t) || errIs inner t
  | e, t => e = t

/-- The classified errors of `cmd/errors.go` plus `plain` for a bare
`fmt.Errorf` with `%w` returned directly by `RunE` (the API-key and edit
failure wraps). -/
inductive GocoError where
  | validation (field message help : List Char)
  | config (field message : List Char)
  | provider (name message : List Char) (err : Option GoErr)
  | git (command message : List Char) (err : Option GoErr)
  | api (message : List Char) (err : Option GoErr)
  | plain (e : GoErr)
deriving DecidableEq

/-- `errors.Is` lifted to a classified error: the struct errors expose their
cause through `Unwrap` (ValidationError and ConfigError have no `Unwrap`),
and a `plain` error is itself a wrap chain. -/
def gocoErrIs (e : GocoError) (target : GoErr) : Bool :=
  match e with
  | .provider _ _ (some w) => errIs w target
  | .git _ _ (some w) => errIs w target
  | .api _ (some w) => errIs w target
  | .plain w => errIs w target
  | _ => false

/-- The branch of the `switch` in `main` that handles a given error: the five
`errors.As` cases are tried in source order and match on the dynamic type of
the error itself, then the three `errors.Is` sentinel cases inspect the
unwrap chain, then the default case. -/
inductive Branch where
  | validation
  | api
  | git
  | provider
  | config
  | noEditor
  | notRepo
  | noStaged
  | generic
deriving DecidableEq

/-- Model of the dispatch performed by `main`: which branch of its `switch`
presents the error.  A classified struct error always satisfies its
`errors.As` case, so only a `plain` wrap chain can reach the sentinel
`errors.Is` cases. -/
def dispatch (e : GocoError) : Branch :=
  match e with
  | .validation .. => .validation
  | .api .. => .api
  | .git .. => .git
  | .provider .. => .provider
  | .config .. => .config
  | .plain w =>
    if errIs w .sentinelNoEditor then .noEditor
    else if errIs w .sentinelGitRepository then .notRepo
    else if errIs w .sentinelNoStagedFiles then .noStaged
    else .generic

/-- The conventional-commits cheat-sheet link spliced into the prompt by both
providers. -/
def referLink : List Char :=
  ("https://gist.githubusercontent.com/qoomon/5dfcdf8eec66a051ecd85625518cfd13/raw/d7d529a329079616d47dcf100bd7d2d2c848e835/conventional-commits-cheatsheet.md").toList

/-- The prompt built by `GenerateCommitMessage`; the Gemini and Groq sources
contain the identical format string, so the template is shared here.  The
optional custom-instructions block is appended exactly when the argument is
non-empty. -/
def commitPrompt (gitStatus gitDiff customInstructions : List Char) : List Char :=
  ("Generate a Conventional Commit based strictly on the following:\n\nGit Status:\n").toList ++
    gitStatus ++
    ("\n\nGit Diff:\n").toList ++
    gitDiff ++
    ("\n\nBefore responding, you MUST:\n- Read: ").toList ++
    referLink ++
    ("\n- ONLY output the commit message and description.\n- DO NOT include markdown, code blocks, quotes, or any formatting.\n- Output MUST be plain text only.\n- Do not add extra explanations, notes, or commentary.\n- The first line is the commit summary, the rest is the description.\n- Follow Conventional Commit standards exactly.\n- No extra lines before or after the commit message.\n").toList ++
    (if customInstructions = [] then []
     else ("\n\nAdditional Instructions:\n").toList ++ customInstructions ++ [ '\n' ])

namespace GeminiProvider

/-- The model-list formatting loop of `ValidateModel`: a `strings.Builder`
receiving `Fprintf "%s\n"` per model. -/
def joinLines (models : List (List Char)) : List Char :=
  models.foldl (fun b m => b ++ m ++ [ '\n' ]) []

/-- The regular expression `^gemini-` of `ListModels`, as a prefix test. -/
def matchesGemini (name : List Char) : Bool :=
  ("gemini-").toList.isPrefixOf name

/-- The filtering loop of `GeminiProvider.ListModels` over the raw backend
items: strip the leading `models/` from each name and keep the names matching
`^gemini-`; if that leaves nothing, a second loop appends every stripped name
instead. -/
def filterModels (items : List (List Char)) : List (List Char) :=
  let filtered := items.foldl
    (fun acc m =>
      let name := goTrimPre (("models/").toList) m
      if matchesGemini name then acc ++ [name] else acc) []
  if filtered = [] then
    items.foldl (fun acc m => acc ++ [goTrimPre (("models/").toList) m]) []
  else filtered

/-- `GeminiProvider.ListModels`.  The argument models the outcome of the
backend call `geminiListModelsFunc` (the live `client.Models.List`), giving
the raw model names on success; a listing failure is wrapped as
`failed to list models: %w`. -/
def ListModels (raw : Except (List Char) (List (List Char))) :
    Except GoErr (List (List Char)) :=
  match raw with
  | .error e => .error (.wrap (("failed to list models").toList) (.ext e))
  | .ok items => .ok (filterModels items)

/-- `GeminiProvider.ValidateModel`: list the models (propagating the listing
error unchanged) and fail with the model-enumerating message when the model
is absent. -/
def ValidateModel (raw : Except (List Char) (List (List Char)))
    (model : List Char) : Option GoErr :=
  match ListModels raw with
  | .error e => some e
  | .ok models =>
    if model ∈ models then none
    else some (.msg (("model not available\nAvailable Models:\n").toList ++
      joinLines models))

/-- `GeminiProvider.GenerateCommitMessage`: build the prompt, submit it to the
backend (`client.Models.GenerateContent`, modelled by the `backend`
argument), wrap a transport failure as `Gemini API error: %w`, and otherwise
return `resp.Text()` verbatim. -/
def GenerateCommitMessage (backend : List Char → Except (List Char) (List Char))
    (gitStatus gitDiff customInstructions : List Char) : Except GoErr (List Char) :=
  match backend (commitPrompt gitStatus gitDiff customInstructions) with
  | .error e => .error (.wrap (("Gemini API error").toList) (.ext e))
  | .ok text => .ok text

end GeminiProvider

namespace GroqProvider

/-- The static curated model list returned by `GroqProvider.ListModels` (and
by the `groqListModelsFunc` default of the indirection variant). -/
def staticModels : List (List Char) :=
  [("groq/compound").toList,
   ("groq/compound-mini").toList,
   ("llama-3.1-8b-instant").toList,
   ("llama-3.3-70b-versatile").toList,
   ("mixtral-8x7b-32768").toList,
   ("openai/gpt-oss-120b").toList,
   ("openai/gpt-oss-20b").toList,
   ("meta-llama/llama-4-maverick-17b-128e-instruct").toList,
   ("meta-llama/llama-4-scout-17b-16e-instruct").toList,
   ("moonshotai/kimi-k2-instruct-0905").toList,
   ("qwen/qwen3-32b").toList]

/-- `GroqProvider.ListModels` of `providers/groq.go`: returns the static list
and never fails. -/
def ListModels : Except GoErr (List (List Char)) :=
  .ok staticModels

/-- The `model %s not available` error of `GroqProvider.ValidateModel`. -/
def notAvailable (model : List Char) : GoErr :=
  .msg (("model ").toList ++ model ++ (" not available").toList)

/-- `GroqProvider.ValidateModel` of `providers/groq.go`: the listing error is
discarded with `_`, which is harmless because `ListModels` is static and
infallible; fails exactly when the model is absent from the static list. -/
def ValidateModel (model : List Char) : Option GoErr :=
  if model ∈ staticModels then none else some (notAvailable model)

/-- `GroqProvider.ValidateModel` of the indirection variant of `groq.go`
(where `ListModels` delegates to the substitutable `groqListModelsFunc`,
modelled by the `listRes` argument): a listing failure is propagated wrapped
as `failed to list groq models: %w`. -/
def ValidateModelIndirect (listRes : Except (List Char) (List (List Char)))
    (model : List Char) : Option GoErr :=
  match listRes with
  | .error e => some (.wrap (("failed to list groq models").toList) (.ext e))
  | .ok models =>
    if model ∈ models then none else some (notAvailable model)

/-- `GroqProvider.GenerateCommitMessage`: build the prompt, submit it to the
backend (`client.ChatCompletion`, modelled by the `backend` argument giving
the message content of each returned choice), wrap a transport failure as
`Groq API error: %w`, fail with `no response from Groq API` when the choice
list is empty, and otherwise return the first choice content verbatim. -/
def GenerateCommitMessage
    (backend : List Char → Except (List Char) (List (List Char)))
    (gitStatus gitDiff customInstructions : List Char) : Except GoErr (List Char) :=
  match backend (commitPrompt gitStatus gitDiff customInstructions) with
  | .error e => .error (.wrap (("Groq API error").toList) (.ext e))
  | .ok [] => .error (.msg (("no response from Groq API").toList))
  | .ok (c :: _) => .ok c

end GroqProvider

/-- The fixed fallback editor list searched on PATH by `editCommitMessage`. -/
def fallbackEditors : List (List Char) :=
  [("vim").toList, ("nano").toList, ("vi").toList]

/-- External effects consumed by `editCommitMessage`: the three temp-file
steps, the two environment variables, PATH lookup, the editor subprocess and
the read-back of the edited file.  Failures are the opaque messages of the
underlying library errors. -/
structure EditEnv where
  createTemp : Except (List Char) Unit
  writeTemp : Except (List Char) Unit
  closeTemp : Except (List Char) Unit
  editorVar : List Char
  visualVar : List Char
  onPath : List Char → Bool
  runEditor : Except (List Char) Unit
  readTemp : Except (List Char) (List Char)

/-- The editor-resolution chain of `editCommitMessage`: `EDITOR` when
non-empty, else `VISUAL` when non-empty, else the first entry of
`fallbackEditors` for which `exec.LookPath` succeeds, else the empty string.
-/
def resolveEditor (env : EditEnv) : List Char :=
  let editor := env.editorVar
  let editor := if editor = [] then env.visualVar else editor
  if editor = [] then
    match fallbackEditors.find? env.onPath with
    | some e => e
    | none => []
  else editor

/-- `editCommitMessage` of `cmd/generate.go`: write the message to a temp
file, resolve an editor (failing with a wrap of `ErrNoEditor` when none
resolves), run it, read the result back, and return the original message
unchanged when the edited content trims to empty, else the trimmed content.
-/
def editCommitMessage (env : EditEnv) (message : List Char) :
    Except GoErr (List Char) :=
  match env.createTemp with
  | .error e => .error (.wrap (("failed to create temp file").toList) (.ext e))
  | .ok _ =>
  match env.writeTemp with
  | .error e => .error (.wrap (("failed to write to temp file").toList) (.ext e))
  | .ok _ =>
  match env.closeTemp with
  | .error e => .error (.wrap (("failed to close temp file").toList) (.ext e))
  | .ok _ =>
    if resolveEditor env = [] then
      .error (.wrap (("failed to find editor").toList) .sentinelNoEditor)
    else
      match env.runEditor with
      | .error e =>
        .error (.wrap ((("editor ").toList ++ resolveEditor env ++
          (" failed").toList)) (.ext e))
      | .ok _ =>
        match env.readTemp with
        | .error e =>
          .error (.wrap (("failed to read edited message").toList) (.ext e))
        | .ok content =>
          if goTrimSpace content = [] then .ok message
          else .ok (goTrimSpace content)

/-- `getStagedFiles` of `cmd/generate.go`, as a function of the output of the
`git diff --name-only --cached` subprocess it runs: the staged list is
`strings.Fields(strings.TrimSpace(out))`. -/
def getStagedFiles (out : List Char) : List (List Char) :=
  goFields (goTrimSpace out)

/-- One observable effect of a pipeline run: a provider construction, a
provider model-validation call (which performs the model listing), the
provider generation call, a git subprocess with its argument vector, an error
printed by the top-level dispatcher, or a process exit. -/
inductive Event where
  | initProvider
  | validateModel
  | generateCall
  | gitCmd (args : List (List Char))
  | printErr (b : Branch)
  | exitProcess (code : Nat)
deriving DecidableEq

/-- Argument vector of the `git status` capture. -/
def gitStatusArgs : List (List Char) := [("git").toList, ("status").toList]

/-- Argument vector of the working-tree diff capture. -/
def gitDiffArgs : List (List Char) :=
  [("git").toList, ("diff").toList, ("--no-color").toList]

/-- Argument vector of the staged diff capture. -/
def gitDiffStagedArgs : List (List Char) :=
  [("git").toList, ("diff").toList, ("--no-color").toList, ("--staged").toList]

/-- Argument vector of the index update performed under WorkingTree scope. -/
def gitAddUArgs : List (List Char) :=
  [("git").toList, ("add").toList, ("-u").toList]

/-- Argument vector of the commit-time staged-file listing. -/
def stagedListArgs : List (List Char) :=
  [("git").toList, ("diff").toList, ("--name-only").toList, ("--cached").toList]

/-- Argument vector of the full-index commit. -/
def commitPlainArgs (msg : List Char) : List (List Char) :=
  [("git").toList, ("commit").toList, ("-m").toList, msg]

/-- Argument vector of the StagedOnly commit: `--only -- <paths...>`. -/
def commitOnlyArgs (msg : List Char) (paths : List (List Char)) :
    List (List Char) :=
  [("git").toList, ("commit").toList, ("-m").toList, msg,
   ("--only").toList, ("--").toList] ++ paths

/-- Whether a git argument vector is a commit invocation. -/
def isCommitArgs (args : List (List Char)) : Bool :=
  args.take 2 = [("git").toList, ("commit").toList]

/-- The provider selected by the `switch` in `RunE`. -/
inductive PKind where
  | gemini
  | groq
deriving DecidableEq

/-- External effects and flag state consumed by one `generate` run.  Each
`Except` field is the outcome of the corresponding subprocess or network
call; error payloads are the opaque messages of the underlying errors. -/
structure Env where
  providerName : List Char
  modelFlag : List Char
  customInstructions : List Char
  apiKeyResolved : Except (List Char) Unit
  providerInit : Except (List Char) Unit
  geminiRawModels : Except (List Char) (List (List Char))
  geminiBackend : List Char → Except (List Char) (List Char)
  groqBackend : List Char → Except (List Char) (List (List Char))
  gitStatus : Except (List Char) (List Char)
  gitDiffWorking : Except (List Char) (List Char)
  gitDiffStaged : Except (List Char) (List Char)
  editFlag : Bool
  stagedFlag : Bool
  editEnv : EditEnv
  gitAddU : Except (List Char) Unit
  stagedListAtCommit : Except (List Char) (List Char)
  gitCommit : Except (List Char) Unit

deriving instance DecidableEq for Except

/-- Trace and result of one run of the `generate` pipeline. -/
structure RunOut where
  events : List Event
  result : Except GocoError Unit
deriving DecidableEq

/-- The model-validation call dispatched through the `Provider` interface. -/
def validateFor (env : Env) : PKind → List Char → Option GoErr
  | .gemini, m => GeminiProvider.ValidateModel env.geminiRawModels m
  | .groq, m => GroqProvider.ValidateModel m

/-- The generation call dispatched through the `Provider` interface. -/
def generateFor (env : Env) : PKind → List Char → List Char → Except GoErr (List Char)
  | .gemini, statusOut, diffOut =>
    GeminiProvider.GenerateCommitMessage env.geminiBackend statusOut diffOut
      env.customInstructions
  | .groq, statusOut, diffOut =>
    GroqProvider.GenerateCommitMessage env.groqBackend statusOut diffOut
      env.customInstructions

/-- The commit stage of `RunE`: under WorkingTree scope run `git add -u` and
a full-index commit; under StagedOnly scope skip the index update, re-list
the staged files, fail with a `GitError` wrapping `ErrGitRepository` when the
listing is empty, and otherwise commit exactly the listed paths with
`--only`. -/
def commitStage (env : Env) (ev : List Event) (msg : List Char) : RunOut :=
  if env.stagedFlag = false then
    let ev4 := ev ++ [Event.gitCmd gitAddUArgs]
    match env.gitAddU with
    | .error e =>
      ⟨ev4, .error (.git (("git add -u").toList)
        (("failed to stage changes").toList) (some (.ext e)))⟩
    | .ok _ =>
      let ev5 := ev4 ++ [Event.gitCmd (commitPlainArgs msg)]
      match env.gitCommit with
      | .error e =>
        ⟨ev5, .error (.git (("git commit").toList)
          (("failed to commit changes").toList) (some (.ext e)))⟩
      | .ok _ => ⟨ev5, .ok ()⟩
  else
    let ev4 := ev ++ [Event.gitCmd stagedListArgs]
    match env.stagedListAtCommit with
    | .error e =>
      ⟨ev4, .error (.git (("git diff --name-only --cached").toList)
        (("failed to list staged files").toList) (some (.ext e)))⟩
    | .ok out =>
      let stagedFiles := goFields (goTrimSpace out)
      if stagedFiles = [] then
        ⟨ev4, .error (.git (("git diff --name-only --cached").toList)
          (("no staged changes to commit").toList)
          (some .sentinelGitRepository))⟩
      else
        let ev5 := ev4 ++ [Event.gitCmd (commitOnlyArgs msg stagedFiles)]
        match env.gitCommit with
        | .error e =>
          ⟨ev5, .error (.git (("git commit").toList)
            (("failed to commit changes").toList) (some (.ext e)))⟩
        | .ok _ => ⟨ev5, .ok ()⟩

/-- The optional interactive-edit step of `RunE`: run `editCommitMessage` on
the generated message exactly when the `--edit` flag is set. -/
def editStep (env : Env) (msg0 : List Char) : Except GoErr (List Char) :=
  if env.editFlag then editCommitMessage env.editEnv msg0 else .ok msg0

/-- The stages of `RunE` following provider construction: model validation,
`git status` capture with the whitespace-only fail-fast check, the diff
capture selected by the `staged` flag, the generation call, the optional
interactive edit, and the commit stage. -/
def afterInit (env : Env) (pk : PKind) (effModel : List Char) : RunOut :=
  let ev0 := [Event.initProvider, Event.validateModel]
  match validateFor env pk effModel with
  | some _ =>
    ⟨ev0, .error (.validation (("model").toList)
      ((("validation failed for model ").toList ++ effModel))
      (("run the models command to list available models").toList))⟩
  | none =>
    let ev1 := ev0 ++ [Event.gitCmd gitStatusArgs]
    match env.gitStatus with
    | .error e =>
      ⟨ev1, .error (.git (("git status").toList)
        (("failed to get repository status").toList) (some (.ext e)))⟩
    | .ok statusOut =>
      if goTrimSpace statusOut = [] then
        ⟨ev1, .error (.git (("git status").toList)
          (("no changes detected").toList) (some .sentinelGitRepository))⟩
      else
        let diffArgs := if env.stagedFlag then gitDiffStagedArgs else gitDiffArgs
        let diffRes := if env.stagedFlag then env.gitDiffStaged else env.gitDiffWorking
        let ev2 := ev1 ++ [Event.gitCmd diffArgs]
        match diffRes with
        | .error e =>
          ⟨ev2, .error (.git (("git diff").toList)
            (("failed to get diff").toList) (some (.ext e)))⟩
        | .ok diffOut =>
          let ev3 := ev2 ++ [Event.generateCall]
          match generateFor env pk statusOut diffOut with
          | .error e =>
            ⟨ev3, .error (.api (("failed to generate commit message").toList)
              (some e))⟩
          | .ok msg0 =>
            match editStep env msg0 with
            | .error e =>
              ⟨ev3, .error (.plain
                (.wrap (("failed to edit commit message").toList) e))⟩
            | .ok msg => commitStage env ev3 msg

/-- `RunE` of the `generate` command: provider selection on the resolved
provider name (API-key resolution and provider construction first, with the
per-provider default model), then `afterInit`.  An unsupported provider name
is a `ValidationError`. -/
def runGenerate (env : Env) : RunOut :=
  if env.providerName = ("groq").toList then
    match env.apiKeyResolved with
    | .error e =>
      ⟨[], .error (.plain (.wrap (("failed to get Groq API key").toList) (.ext e)))⟩
    | .ok _ =>
      let effModel := if env.modelFlag = [] then ("llama-3.3-70b-versatile").toList
        else env.modelFlag
      match env.providerInit with
      | .error e =>
        ⟨[Event.initProvider], .error (.provider (("groq").toList)
          (("failed to initialize provider").toList) (some (.ext e)))⟩
      | .ok _ => afterInit env .groq effModel
  else if env.providerName = ("gemini").toList then
    match env.apiKeyResolved with
    | .error e =>
      ⟨[], .error (.plain (.wrap (("failed to get Gemini API key").toList) (.ext e)))⟩
    | .ok _ =>
      let effModel := if env.modelFlag = [] then ("gemini-2.5-flash").toList
        else env.modelFlag
      match env.providerInit with
      | .error e =>
        ⟨[Event.initProvider], .error (.provider (("gemini").toList)
          (("failed to initialize provider").toList) (some (.ext e)))⟩
      | .ok _ => afterInit env .gemini effModel
  else
    ⟨[], .error (.validation (("provider").toList)
      ((("unsupported provider ").toList ++ env.providerName))
      (("supported providers: gemini, groq").toList))⟩

/-- Process exit code for success. -/
def exitOK : Nat := 0

/-- Process exit code for generic failure, the only non-zero code wired to a
producer; 2, 4 and 8 are declared for cancel, auth and pending but unused. -/
def exitError : Nat := 1

/-- Modelled from the spec: the current `Execute` of `cmd/root.go` is missing
from the sources (the copy present predates the dispatcher in `main`, which
reads the return value of `cmd.Execute()`); per the propagation policy,
lower layers never print or exit, so `Execute` forwards the classified error
from `rootCmd.Execute()` to `main` unchanged. -/
def Execute (r : Except GocoError Unit) : Except GocoError Unit := r

/-- `main`: run the pipeline through `Execute`; on failure print the message
of the branch selected by the dispatcher and exit with `exitError` in every
branch, on success exit with `exitOK`. -/
def mainRun (env : Env) : List Event × Nat :=
  let r := runGenerate env
  match Execute r.result with
  | .error e =>
    (r.events ++ [Event.printErr (dispatch e), Event.exitProcess exitError],
      exitError)
  | .ok _ => (r.events ++ [Event.exitProcess exitOK], exitOK)

/-- The `GitError` produced by the StagedOnly commit path when the
commit-time staged listing is empty: it wraps `ErrGitRepository`, not
`ErrNoStagedFiles`. -/
def emptyStagedErr : GocoError :=
  .git (("git diff --name-only --cached").toList)
    (("no staged changes to commit").toList) (some GoErr.sentinelGitRepository)

/-- An edit environment in which every external step succeeds and `EDITOR`
names an editor; the read-back content is empty. -/
def okEditEnv : EditEnv :=
  { createTemp := .ok (), writeTemp := .ok (), closeTemp := .ok (),
    editorVar := ("vim").toList, visualVar := [], onPath := fun _ => false,
    runEditor := .ok (), readTemp := .ok [] }

/-- A StagedOnly run in which every external call succeeds and one file,
`a.txt`, is staged at commit time. -/
def envHappyStaged : Env :=
  { providerName := ("groq").toList, modelFlag := [], customInstructions := [],
    apiKeyResolved := .ok (), providerInit := .ok (),
    geminiRawModels := .ok [], geminiBackend := fun _ => .ok (("m").toList),
    groqBackend := fun _ => .ok [("feat: x").toList],
    gitStatus := .ok (("M a.txt").toList),
    gitDiffWorking := .ok (("d").toList), gitDiffStaged := .ok (("d").toList),
    editFlag := false, stagedFlag := true, editEnv := okEditEnv,
    gitAddU := .ok (), stagedListAtCommit := .ok (("a.txt").toList),
    gitCommit := .ok () }

/-- A WorkingTree run in which every external call succeeds. -/
def envWT : Env :=
  { providerName := ("groq").toList, modelFlag := [], customInstructions := [],
    apiKeyResolved := .ok (), providerInit := .ok (),
    geminiRawModels := .ok [], geminiBackend := fun _ => .ok (("m").toList),
    groqBackend := fun _ => .ok [("feat: x").toList],
    gitStatus := .ok (("M a.txt").toList),
    gitDiffWorking := .ok (("d").toList), gitDiffStaged := .ok (("d").toList),
    editFlag := false, stagedFlag := false, editEnv := okEditEnv,
    gitAddU := .ok (), stagedListAtCommit := .ok (("a.txt").toList),
    gitCommit := .ok () }

/-- A Gemini run whose `git status` output is whitespace-only while the
backend model listing succeeds and contains the default model, so model
validation (a live listing call) passes before the status check is reached.
-/
def envGeminiWS : Env :=
  { providerName := ("gemini").toList, modelFlag := [], customInstructions := [],
    apiKeyResolved := .ok (), providerInit := .ok (),
    geminiRawModels := .ok [("models/gemini-2.5-flash").toList],
    geminiBackend := fun _ => .ok (("feat: x").toList),
    groqBackend := fun _ => .ok [],
    gitStatus := .ok ((" \n\t").toList),
    gitDiffWorking := .ok [], gitDiffStaged := .ok [],
    editFlag := false, stagedFlag := false, editEnv := okEditEnv,
    gitAddU := .ok (), stagedListAtCommit := .ok [], gitCommit := .ok () }

/-- A StagedOnly run that reaches the commit stage with an empty commit-time
staged listing. -/
def envEmptyStagedList : Env :=
  { providerName := ("groq").toList, modelFlag := [], customInstructions := [],
    apiKeyResolved := .ok (), providerInit := .ok (),
    geminiRawModels := .ok [], geminiBackend := fun _ => .ok (("m").toList),
    groqBackend := fun _ => .ok [("feat: x").toList],
    gitStatus := .ok (("M a.txt").toList),
    gitDiffWorking := .ok (("d").toList), gitDiffStaged := .ok (("d").toList),
    editFlag := false, stagedFlag := true, editEnv := okEditEnv,
    gitAddU := .ok (), stagedListAtCommit := .ok (("\n").toList),
    gitCommit := .ok () }

/-- An edit environment in which `EDITOR`, `VISUAL` and every fallback
editor are all available, to exercise the resolution precedence. -/
def envEditPrecedence : EditEnv :=
  { createTemp := .ok (), writeTemp := .ok (), closeTemp := .ok (),
    editorVar := ("nvim").toList, visualVar := ("emacs").toList,
    onPath := fun _ => true, runEditor := .ok (),
    readTemp := .ok (("x").toList) }

/-- An edit environment whose edited content is whitespace-only. -/
def envEditEmpty : EditEnv :=
  { createTemp := .ok (), writeTemp := .ok (), closeTemp := .ok (),
    editorVar := ("vim").toList, visualVar := [], onPath := fun _ => false,
    runEditor := .ok (), readTemp := .ok (("  \n ").toList) }

lemma goFieldsAux_nonspace (a : List Char) (h : ∀ c ∈ a, goIsSpace c = false) :
    ∀ (acc rest : List Char),
      goFieldsAux acc (a ++ rest) = goFieldsAux (a.reverse ++ acc) rest := by
  induction a with
  | nil => intro acc rest; simp
  | cons c t ih =>
    intro acc rest
    have hc : goIsSpace c = false := h c (by simp)
    have ht : ∀ x ∈ t, goIsSpace x = false := fun x hx => h x (by simp [hx])
    simp only [List.cons_append, goFieldsAux, hc, Bool.false_eq_true, if_false,
      List.append_eq]
    rw [ih ht (c :: acc) rest]
    simp [List.append_assoc]

lemma goFieldsAux_stop (acc : List Char) :
    goFieldsAux acc [] = if acc = [] then [] else [acc.reverse] := rfl

lemma goFields_single (b : List Char) (hb : b ≠ [])
    (h : ∀ c ∈ b, goIsSpace c = false) : goFields b = [b] := by
  have h0 := goFieldsAux_nonspace b h [] []
  simp only [List.append_nil] at h0
  unfold goFields
  rw [h0, goFieldsAux_stop]
  simp [hb]

lemma goFields_pair (a b : List Char) (ha : a ≠ []) (hb : b ≠ [])
    (hna : ∀ c ∈ a, goIsSpace c = false) (hnb : ∀ c ∈ b, goIsSpace c = false) :
    goFields (a ++ ' ' :: b) = [a, b] := by
  unfold goFields
  rw [goFieldsAux_nonspace a hna [] (' ' :: b)]
  simp only [List.append_nil]
  have hra : a.reverse ≠ [] := by simp [ha]
  have hsp : goIsSpace ' ' = true := by decide
  simp only [goFieldsAux, hsp, if_true, hra, if_false, List.reverse_reverse]
  have := goFields_single b hb hnb
  unfold goFields at this
  rw [this]

lemma dropWhile_of_head_not (l r : List Char) (hl : l ≠ [])
    (h : ∀ c ∈ l, goIsSpace c = false) :
    (l ++ r).dropWhile goIsSpace = l ++ r := by
  cases l with
  | nil => exact absurd rfl hl
  | cons c t =>
    have hc : goIsSpace c = false := h c (by simp)
    simp [List.dropWhile, hc]

lemma goTrimSpace_pair (a b : List Char) (ha : a ≠ []) (hb : b ≠ [])
    (hna : ∀ c ∈ a, goIsSpace c = false) (hnb : ∀ c ∈ b, goIsSpace c = false) :
    goTrimSpace (a ++ ' ' :: b) = a ++ ' ' :: b := by
  unfold goTrimSpace
  rw [dropWhile_of_head_not a (' ' :: b) ha hna]
  have hrev : (a ++ ' ' :: b).reverse = b.reverse ++ ' ' :: a.reverse := by
    simp [List.reverse_append, List.append_assoc]
  rw [hrev]
  rw [dropWhile_of_head_not b.reverse (' ' :: a.reverse) (by simp [hb])
    (fun c hc => hnb c (by simpa using hc))]
  simp [List.reverse_append]


lemma foldl_append_filter (p : List Char → Bool) (f : List Char → List Char) :
    ∀ (items acc : List (List Char)),
      items.foldl (fun acc m => if p (f m) then acc ++ [f m] else acc) acc =
        acc ++ (items.map f).filter p := by
  intro items
  induction items with
  | nil => intro acc; simp
  | cons h t ih =>
    intro acc
    simp only [List.foldl_cons, List.map_cons, List.filter_cons]
    by_cases hp : p (f h)
    · simp only [hp, if_true, ih, List.append_assoc, List.singleton_append]
    · simp only [hp, if_false, ih, Bool.false_eq_true]

lemma foldl_append_map (f : List Char → List Char) :
    ∀ (items acc : List (List Char)),
      items.foldl (fun acc m => acc ++ [f m]) acc = acc ++ items.map f := by
  intro items
  induction items with
  | nil => intro acc; simp
  | cons h t ih =>
    intro acc
    simp only [List.foldl_cons, List.map_cons, ih, List.append_assoc,
      List.singleton_append]

lemma filterModels_eq (items : List (List Char)) :
    GeminiProvider.filterModels items =
      if ((items.map (fun m => goTrimPre (("models/").toList) m)).filter
          GeminiProvider.matchesGemini) = []
      then items.map (fun m => goTrimPre (("models/").toList) m)
      else (items.map (fun m => goTrimPre (("models/").toList) m)).filter
        GeminiProvider.matchesGemini := by
  unfold GeminiProvider.filterModels
  simp only []
  rw [foldl_append_filter GeminiProvider.matchesGemini
    (fun m => goTrimPre (("models/").toList) m) items []]
  rw [foldl_append_map (fun m => goTrimPre (("models/").toList) m) items []]
  simp

lemma commitOnly_ne_addU (msg : List Char) (paths : List (List Char)) :
    commitOnlyArgs msg paths ≠ gitAddUArgs := by
  intro h
  have hl := congrArg List.length h
  simp [commitOnlyArgs, gitAddUArgs] at hl

lemma commitPlain_ne_addU (msg : List Char) :
    commitPlainArgs msg ≠ gitAddUArgs := by
  intro h
  have hl := congrArg List.length h
  simp [commitPlainArgs, gitAddUArgs] at hl

lemma addU_ne_commitOnly (msg : List Char) (paths : List (List Char)) :
    gitAddUArgs ≠ commitOnlyArgs msg paths := by
  intro h
  have hl := congrArg List.length h
  simp [commitOnlyArgs, gitAddUArgs] at hl

lemma no_addU_of_staged (env : Env) (h : env.stagedFlag = true) :
    Event.gitCmd gitAddUArgs ∉ (runGenerate env).events := by
  have h1 : gitAddUArgs ≠ gitStatusArgs := by decide
  have h2 : gitAddUArgs ≠ gitDiffStagedArgs := by decide
  have h3 : gitAddUArgs ≠ stagedListArgs := by decide
  unfold runGenerate afterInit commitStage
  simp only [h, Bool.true_eq_false, if_false, if_true]
  repeat' split
  all_goals simp_all [addU_ne_commitOnly, List.mem_append]

lemma commitOnly_ne_status (m : List Char) (p : List (List Char)) :
    commitOnlyArgs m p ≠ gitStatusArgs := by
  intro h
  have hl := congrArg List.length h
  simp [commitOnlyArgs, gitStatusArgs] at hl

lemma commitOnly_ne_diffStaged (m : List Char) (p : List (List Char)) :
    commitOnlyArgs m p ≠ gitDiffStagedArgs := by
  intro h
  have hl := congrArg List.length h
  simp [commitOnlyArgs, gitDiffStagedArgs] at hl

lemma commitOnly_ne_stagedList (m : List Char) (p : List (List Char)) :
    commitOnlyArgs m p ≠ stagedListArgs := by
  intro h
  have hl := congrArg List.length h
  simp [commitOnlyArgs, stagedListArgs] at hl

lemma commitOnly_inj (m m' : List Char) (p p' : List (List Char))
    (h : commitOnlyArgs m p = commitOnlyArgs m' p') : m = m' ∧ p = p' := by
  simp [commitOnlyArgs] at h
  exact h

lemma commit_event_staged (env : Env) (h : env.stagedFlag = true)
    (msg : List Char) (paths : List (List Char)) :
    Event.gitCmd (commitOnlyArgs msg paths) ∈ (runGenerate env).events →
    ∃ out, env.stagedListAtCommit = Except.ok out ∧
      paths = goFields (goTrimSpace out) ∧ paths ≠ [] := by
  unfold runGenerate afterInit commitStage
  simp only [h, Bool.true_eq_false, if_false, if_true]
  repeat' split
  all_goals intro hmem
  all_goals simp_all [List.mem_append, commitOnly_ne_status,
    commitOnly_ne_diffStaged, commitOnly_ne_stagedList]
  all_goals refine ⟨(commitOnly_inj _ _ _ _ hmem).2, ?_⟩
  all_goals rw [(commitOnly_inj _ _ _ _ hmem).2]
  all_goals assumption

lemma isCommitArgs_facts :
    isCommitArgs gitStatusArgs = false ∧ isCommitArgs gitDiffArgs = false ∧
    isCommitArgs gitDiffStagedArgs = false ∧ isCommitArgs gitAddUArgs = false ∧
    isCommitArgs stagedListArgs = false := by decide

lemma empty_staged_fails (env : Env) (h : env.stagedFlag = true) (out : List Char) :
    Event.gitCmd stagedListArgs ∈ (runGenerate env).events →
    env.stagedListAtCommit = Except.ok out →
    goFields (goTrimSpace out) = [] →
    (runGenerate env).result = Except.error (GocoError.git
      (("git diff --name-only --cached").toList)
      (("no staged changes to commit").toList)
      (some GoErr.sentinelGitRepository)) ∧
    (∀ args, Event.gitCmd args ∈ (runGenerate env).events →
      isCommitArgs args = false) := by
  have n1 : stagedListArgs ≠ gitStatusArgs := by decide
  have n2 : stagedListArgs ≠ gitDiffStagedArgs := by decide
  unfold runGenerate afterInit commitStage
  simp only [h, Bool.true_eq_false, if_false, if_true]
  repeat' split
  all_goals intro hr hok he
  all_goals simp_all [List.mem_append, isCommitArgs_facts.1,
    isCommitArgs_facts.2.1, isCommitArgs_facts.2.2.1, isCommitArgs_facts.2.2.2.1,
    isCommitArgs_facts.2.2.2.2]

set_option maxHeartbeats 2000000 in
lemma no_print_no_exit (env : Env) :
    (∀ b, Event.printErr b ∉ (runGenerate env).events) ∧
    (∀ c, Event.exitProcess c ∉ (runGenerate env).events) := by
  constructor
  · intro b
    unfold runGenerate afterInit commitStage
    repeat'
      first
        | split
        | simp [List.mem_append]
  · intro c
    unfold runGenerate afterInit commitStage
    repeat'
      first
        | split
        | simp [List.mem_append]

lemma mainRun_codes (env : Env) :
    ((mainRun env).2 = exitOK ∨ (mainRun env).2 = exitError) ∧
    ((mainRun env).2 = exitOK ↔ (runGenerate env).result = Except.ok ()) ∧
    (∀ e, (runGenerate env).result = Except.error e →
      (mainRun env).2 = exitError) := by
  cases hr : (runGenerate env).result with
  | ok u =>
    cases u
    simp [mainRun, Execute, hr, exitOK, exitError]
  | error e =>
    simp [mainRun, Execute, hr, exitOK, exitError]

lemma editErr_not_noStaged (eenv : EditEnv) (m : List Char) (e : GoErr)
    (h : editCommitMessage eenv m = Except.error e) :
    errIs e GoErr.sentinelNoStagedFiles = false := by
  unfold editCommitMessage at h
  repeat' split at h
  all_goals first
    | (rw [Except.error.injEq] at h; subst h; rfl)
    | simp at h

lemma dispatch_plain_ne_noStaged (w : GoErr)
    (h : errIs w GoErr.sentinelNoStagedFiles = false) :
    dispatch (GocoError.plain w) ≠ Branch.noStaged := by
  simp only [dispatch, h]
  split
  · simp
  · split
    · simp
    · simp

lemma editStep_err_not_noStaged (env : Env) (m : List Char) (e : GoErr)
    (h : editStep env m = Except.error e) :
    errIs e GoErr.sentinelNoStagedFiles = false := by
  unfold editStep at h
  split at h
  · exact editErr_not_noStaged env.editEnv m e h
  · simp at h

lemma generateFor_err_not_noStaged (env : Env) (pk : PKind) (s d : List Char)
    (e : GoErr) (h : generateFor env pk s d = Except.error e) :
    errIs e GoErr.sentinelNoStagedFiles = false := by
  cases pk with
  | gemini =>
    simp only [generateFor] at h
    unfold GeminiProvider.GenerateCommitMessage at h
    split at h
    · rw [Except.error.injEq] at h; subst h; rfl
    · simp at h
  | groq =>
    simp only [generateFor] at h
    unfold GroqProvider.GenerateCommitMessage at h
    repeat' split at h
    all_goals first
      | (rw [Except.error.injEq] at h; subst h; rfl)
      | simp at h

lemma errIs_wrap_noStaged (p : List Char) (i : GoErr)
    (h : errIs i GoErr.sentinelNoStagedFiles = false) :
    errIs (GoErr.wrap p i) GoErr.sentinelNoStagedFiles = false := h

lemma dispatch_validation_ne (f m h : List Char) :
    dispatch (GocoError.validation f m h) ≠ Branch.noStaged := by
  simp [dispatch]

lemma dispatch_provider_ne (n m : List Char) (w : Option GoErr) :
    dispatch (GocoError.provider n m w) ≠ Branch.noStaged := by
  simp [dispatch]

lemma dispatch_git_ne (c m : List Char) (w : Option GoErr) :
    dispatch (GocoError.git c m w) ≠ Branch.noStaged := by
  simp [dispatch]

lemma dispatch_api_ne (m : List Char) (w : Option GoErr) :
    dispatch (GocoError.api m w) ≠ Branch.noStaged := by
  simp [dispatch]

set_option maxHeartbeats 2000000 in
lemma result_not_noStaged (env : Env) (e : GocoError) :
    (runGenerate env).result = Except.error e →
    (gocoErrIs e GoErr.sentinelNoStagedFiles = false ∧
      dispatch e ≠ Branch.noStaged) := by
  unfold runGenerate afterInit commitStage
  repeat' split
  all_goals intro hr
  all_goals try (rw [Except.error.injEq] at hr; subst hr)
  all_goals try first
    | simp at hr
    | exact ⟨rfl, dispatch_validation_ne _ _ _⟩
    | exact ⟨rfl, dispatch_provider_ne _ _ _⟩
    | exact ⟨rfl, dispatch_git_ne _ _ _⟩
    | exact ⟨rfl, dispatch_plain_ne_noStaged _ rfl⟩
    | (rename_i heq2
       exact ⟨errIs_wrap_noStaged _ _ (editStep_err_not_noStaged _ _ _ heq2),
         dispatch_plain_ne_noStaged _
           (errIs_wrap_noStaged _ _ (editStep_err_not_noStaged _ _ _ heq2))⟩)
    | (rename_i heq2
       exact ⟨generateFor_err_not_noStaged _ _ _ _ _ heq2,
         dispatch_api_ne _ _⟩)
  all_goals repeat' split at hr
  all_goals try (dsimp only at hr)
  all_goals try (rw [Except.error.injEq] at hr; subst hr)
  all_goals first
    | simp at hr
    | exact ⟨rfl, dispatch_validation_ne _ _ _⟩
    | exact ⟨rfl, dispatch_provider_ne _ _ _⟩
    | exact ⟨rfl, dispatch_git_ne _ _ _⟩
    | exact ⟨rfl, dispatch_plain_ne_noStaged _ rfl⟩
    | (rename_i heq2
       exact ⟨errIs_wrap_noStaged _ _ (editStep_err_not_noStaged _ _ _ heq2),
         dispatch_plain_ne_noStaged _
           (errIs_wrap_noStaged _ _ (editStep_err_not_noStaged _ _ _ heq2))⟩)
    | (rename_i heq2
       exact ⟨generateFor_err_not_noStaged _ _ _ _ _ heq2,
         dispatch_api_ne _ _⟩)

set_option maxHeartbeats 2000000 in
lemma empty_status_fails (env : Env) (s : List Char) :
    Event.gitCmd gitStatusArgs ∈ (runGenerate env).events →
    env.gitStatus = Except.ok s →
    goTrimSpace s = [] →
    (runGenerate env).result = Except.error (GocoError.git
      (("git status").toList) (("no changes detected").toList)
      (some GoErr.sentinelGitRepository)) ∧
    Event.generateCall ∉ (runGenerate env).events := by
  have n1 : gitStatusArgs ≠ gitDiffArgs := by decide
  have n2 : gitStatusArgs ≠ gitDiffStagedArgs := by decide
  have n3 : gitStatusArgs ≠ gitAddUArgs := by decide
  have n4 : gitStatusArgs ≠ stagedListArgs := by decide
  unfold runGenerate afterInit commitStage
  cases hsf : env.stagedFlag with
  | false =>
    simp only [hsf, Bool.false_eq_true, if_false, if_true]
    repeat' split
    all_goals intro hr hok he
    all_goals simp_all [List.mem_append]
  | true =>
    simp only [hsf, Bool.true_eq_false, if_false, if_true]
    repeat' split
    all_goals intro hr hok he
    all_goals simp_all [List.mem_append]

/-- Claim C1: under StagedOnly scope (the `--staged` flag) the pipeline never
runs `git add -u`; every `--only` commit it performs carries exactly the
commit-time staged-file list, namely `strings.Fields(strings.TrimSpace(out))`
of the second `git diff --name-only --cached` output, which is non-empty;
and when that commit-time listing is empty the run returns a `GitError` and
no commit command is executed. -/
theorem c1_stagedOnly_exact_commit (env : Env) (h : env.stagedFlag = true) :
    (Event.gitCmd gitAddUArgs ∉ (runGenerate env).events) ∧
    (∀ msg paths,
      Event.gitCmd (commitOnlyArgs msg paths) ∈ (runGenerate env).events →
      ∃ out, env.stagedListAtCommit = Except.ok out ∧
        paths = goFields (goTrimSpace out) ∧ paths ≠ []) ∧
    (∀ out, Event.gitCmd stagedListArgs ∈ (runGenerate env).events →
      env.stagedListAtCommit = Except.ok out →
      goFields (goTrimSpace out) = [] →
      (runGenerate env).result = Except.error emptyStagedErr ∧
      (∀ args, Event.gitCmd args ∈ (runGenerate env).events →
        isCommitArgs args = false)) :=
  ⟨no_addU_of_staged env h,
   fun msg paths hm => commit_event_staged env h msg paths hm,
   fun out hm hok he => empty_staged_fails env h out hm hok he⟩

/-- Witness for C1 at a concrete StagedOnly run with one staged file. -/
theorem c1_witness :
    Event.gitCmd gitAddUArgs ∉ (runGenerate envHappyStaged).events ∧
    (∃ out, envHappyStaged.stagedListAtCommit = Except.ok out ∧
      [("a.txt").toList] = goFields (goTrimSpace out) ∧
      [("a.txt").toList] ≠ []) :=
  ⟨(c1_stagedOnly_exact_commit envHappyStaged rfl).1,
   (c1_stagedOnly_exact_commit envHappyStaged rfl).2.1 (("feat: x").toList)
     [("a.txt").toList] (by decide)⟩

/-- Claim C2 counterexample: a run whose `git status` output is
whitespace-only still fails only after model validation, a provider call
performing a live model listing, was attempted; so the claim that the
failure precedes every provider call is false. -/
theorem c2_counterexample :
    (runGenerate envGeminiWS).result = Except.error (GocoError.git
      (("git status").toList) (("no changes detected").toList)
      (some GoErr.sentinelGitRepository)) ∧
    Event.validateModel ∈ (runGenerate envGeminiWS).events := by decide

/-- Claim C2 (amended): whenever the `git status` capture is reached and its
output is whitespace-only, the run fails with the `no changes detected`
`GitError` wrapping `ErrGitRepository` and the provider generation call is
never attempted (provider construction and model validation do run first).
-/
theorem c2_empty_status_fails_before_generation (env : Env) (s : List Char)
    (hm : Event.gitCmd gitStatusArgs ∈ (runGenerate env).events)
    (hok : env.gitStatus = Except.ok s) (he : goTrimSpace s = []) :
    (runGenerate env).result = Except.error (GocoError.git
      (("git status").toList) (("no changes detected").toList)
      (some GoErr.sentinelGitRepository)) ∧
    Event.generateCall ∉ (runGenerate env).events :=
  empty_status_fails env s hm hok he

/-- Witness for the amended C2 at the concrete whitespace-status run. -/
theorem c2_witness :
    (runGenerate envGeminiWS).result = Except.error (GocoError.git
      (("git status").toList) (("no changes detected").toList)
      (some GoErr.sentinelGitRepository)) ∧
    Event.generateCall ∉ (runGenerate envGeminiWS).events :=
  c2_empty_status_fails_before_generation envGeminiWS ((" \n\t").toList)
    (by decide) rfl (by decide)

/-- Claim C3: for every raw model list returned by the Gemini backend,
`ListModels` returns the prefix-filtered subset of the stripped names when
that subset is non-empty, otherwise the full stripped list; it never returns
an empty list when the backend returned at least one model. -/
theorem c3_gemini_filter_fallback (items : List (List Char)) :
    (((items.map (fun m => goTrimPre (("models/").toList) m)).filter
        GeminiProvider.matchesGemini ≠ [] →
      GeminiProvider.ListModels (Except.ok items) =
        Except.ok ((items.map (fun m => goTrimPre (("models/").toList) m)).filter
          GeminiProvider.matchesGemini)) ∧
     ((items.map (fun m => goTrimPre (("models/").toList) m)).filter
        GeminiProvider.matchesGemini = [] →
      GeminiProvider.ListModels (Except.ok items) =
        Except.ok (items.map (fun m => goTrimPre (("models/").toList) m))) ∧
     (items ≠ [] →
      GeminiProvider.ListModels (Except.ok items) ≠ Except.ok [])) := by
  refine ⟨?_, ?_, ?_⟩
  · intro hne
    simp only [GeminiProvider.ListModels]
    rw [filterModels_eq, if_neg hne]
  · intro he
    simp only [GeminiProvider.ListModels]
    rw [filterModels_eq, if_pos he]
  · intro hne hcon
    simp only [GeminiProvider.ListModels, Except.ok.injEq] at hcon
    rw [filterModels_eq] at hcon
    split at hcon
    · exact hne (by simpa using hcon)
    · exact absurd hcon (by assumption)

/-- Witness for C3 at a concrete raw list with a non-empty filtered subset.
-/
theorem c3_witness :
    GeminiProvider.ListModels (Except.ok
      [("models/gemini-2.5-flash").toList, ("models/other").toList]) =
    Except.ok [("gemini-2.5-flash").toList] := by
  have h := (c3_gemini_filter_fallback
    [("models/gemini-2.5-flash").toList, ("models/other").toList]).1 (by decide)
  rw [h]
  decide

/-- Claim C4: for both provider variants, `ValidateModel` fetches the model
list, propagates a listing failure as a wrapped error, and returns nil
exactly when the model is present in the returned list.  The current
`groq.go` discards the listing error, which is harmless because its
`ListModels` is static and infallible; the indirection variant wraps the
listing failure. -/
theorem c4_validateModel_membership :
    ∀ (e : List Char) (items : List (List Char)) (model : List Char),
      (GeminiProvider.ValidateModel (Except.error e) model =
        some (GoErr.wrap (("failed to list models").toList) (GoErr.ext e))) ∧
      (GeminiProvider.ValidateModel (Except.ok items) model = none ↔
        model ∈ GeminiProvider.filterModels items) ∧
      (GroqProvider.ValidateModelIndirect (Except.error e) model =
        some (GoErr.wrap (("failed to list groq models").toList) (GoErr.ext e))) ∧
      (GroqProvider.ValidateModelIndirect (Except.ok items) model = none ↔
        model ∈ items) ∧
      (GroqProvider.ValidateModel model = none ↔
        model ∈ GroqProvider.staticModels) := by
  intro e items model
  refine ⟨rfl, ?_, rfl, ?_, ?_⟩
  · by_cases hm : model ∈ GeminiProvider.filterModels items
    · simp [GeminiProvider.ValidateModel, GeminiProvider.ListModels, hm]
    · simp [GeminiProvider.ValidateModel, GeminiProvider.ListModels, hm]
  · by_cases hm : model ∈ items
    · simp [GroqProvider.ValidateModelIndirect, hm]
    · simp [GroqProvider.ValidateModelIndirect, hm]
  · by_cases hm : model ∈ GroqProvider.staticModels
    · simp [GroqProvider.ValidateModel, hm]
    · simp [GroqProvider.ValidateModel, hm]

/-- Witness for C4: the default Groq model validates against the static
list. -/
theorem c4_witness :
    GroqProvider.ValidateModel (("llama-3.3-70b-versatile").toList) = none := by
  have h := (c4_validateModel_membership [] []
    (("llama-3.3-70b-versatile").toList)).2.2.2.2
  exact h.mpr (by decide)

/-- Claim C5 counterexample: a successful backend response with empty text
(Gemini), or a single choice with empty content (Groq), is returned as an
empty message together with a nil error, so the claim that this never
happens is false. -/
theorem c5_counterexample :
    GeminiProvider.GenerateCommitMessage (fun _ => Except.ok []) [] [] [] =
      Except.ok [] ∧
    GroqProvider.GenerateCommitMessage (fun _ => Except.ok [[]]) [] [] [] =
      Except.ok [] := ⟨rfl, rfl⟩

/-- Claim C5 (amended): both providers return a wrapped non-nil error when
the backend transport call fails, and Groq additionally when the response
contains no choices; a successful Gemini response is returned verbatim and a
successful Groq response yields its first choice content verbatim, so an
empty message with nil error is possible. -/
theorem c5_generate_error_propagation :
    ∀ (gb : List Char → Except (List Char) (List Char))
      (qb : List Char → Except (List Char) (List (List Char)))
      (s d c e t : List Char) (cs : List (List Char)),
      (gb (commitPrompt s d c) = Except.error e →
        GeminiProvider.GenerateCommitMessage gb s d c =
          Except.error (GoErr.wrap (("Gemini API error").toList) (GoErr.ext e))) ∧
      (gb (commitPrompt s d c) = Except.ok t →
        GeminiProvider.GenerateCommitMessage gb s d c = Except.ok t) ∧
      (qb (commitPrompt s d c) = Except.error e →
        GroqProvider.GenerateCommitMessage qb s d c =
          Except.error (GoErr.wrap (("Groq API error").toList) (GoErr.ext e))) ∧
      (qb (commitPrompt s d c) = Except.ok [] →
        GroqProvider.GenerateCommitMessage qb s d c =
          Except.error (GoErr.msg (("no response from Groq API").toList))) ∧
      (qb (commitPrompt s d c) = Except.ok (t :: cs) →
        GroqProvider.GenerateCommitMessage qb s d c = Except.ok t) := by
  intro gb qb s d c e t cs
  refine ⟨?_, ?_, ?_, ?_, ?_⟩ <;> intro h <;>
    simp [GeminiProvider.GenerateCommitMessage,
      GroqProvider.GenerateCommitMessage, h]

/-- Witness for the amended C5 at a concrete successful backend. -/
theorem c5_witness :
    GeminiProvider.GenerateCommitMessage
      (fun _ => Except.ok (("feat: y").toList)) [] [] [] =
    Except.ok (("feat: y").toList) :=
  (c5_generate_error_propagation (fun _ => Except.ok (("feat: y").toList))
    (fun _ => Except.ok []) [] [] [] [] (("feat: y").toList) []).2.1 rfl

/-- Claim C6: editor resolution in `editCommitMessage` prefers a non-empty
`EDITOR` unconditionally, then a non-empty `VISUAL`, then the first entry of
the fixed fallback list `[vim, nano, vi]` found on PATH; when no source
yields an editor the operation fails with a wrap of the `ErrNoEditor`
sentinel. -/
theorem c6_editor_resolution_precedence (env : EditEnv) (message : List Char) :
    (env.editorVar ≠ [] → resolveEditor env = env.editorVar) ∧
    (env.editorVar = [] → env.visualVar ≠ [] →
      resolveEditor env = env.visualVar) ∧
    (env.editorVar = [] → env.visualVar = [] →
      ∀ ed, fallbackEditors.find? env.onPath = some ed →
        resolveEditor env = ed) ∧
    (env.createTemp = Except.ok () → env.writeTemp = Except.ok () →
      env.closeTemp = Except.ok () → resolveEditor env = [] →
      editCommitMessage env message = Except.error
        (GoErr.wrap (("failed to find editor").toList)
          GoErr.sentinelNoEditor)) := by
  refine ⟨?_, ?_, ?_, ?_⟩
  · intro h
    simp [resolveEditor, h]
  · intro h1 h2
    simp [resolveEditor, h1, h2]
  · intro h1 h2 ed hed
    simp [resolveEditor, h1, h2, hed]
  · intro h1 h2 h3 h4
    simp [editCommitMessage, h1, h2, h3, h4]

/-- Witness for C6: `EDITOR` wins although `VISUAL` and all fallback editors
are available. -/
theorem c6_witness : resolveEditor envEditPrecedence = ("nvim").toList :=
  (c6_editor_resolution_precedence envEditPrecedence []).1 (by decide)

/-- Claim C7: no pipeline stage emits an error print or a process exit;
`main` selects the exit code from the forwarded classified result, exiting
`exitOK` exactly on success and `exitError` on every failure, the only
non-zero code. -/
theorem c7_single_dispatcher_exit_codes (env : Env) :
    (∀ b, Event.printErr b ∉ (runGenerate env).events) ∧
    (∀ c, Event.exitProcess c ∉ (runGenerate env).events) ∧
    ((mainRun env).2 = exitOK ∨ (mainRun env).2 = exitError) ∧
    ((mainRun env).2 = exitOK ↔ (runGenerate env).result = Except.ok ()) ∧
    (∀ e, (runGenerate env).result = Except.error e →
      (mainRun env).2 = exitError) :=
  ⟨(no_print_no_exit env).1, (no_print_no_exit env).2,
   (mainRun_codes env).1, (mainRun_codes env).2.1, (mainRun_codes env).2.2⟩

/-- Witness for C7: the concrete WorkingTree run exits `exitOK` and the
whitespace-status run exits `exitError`. -/
theorem c7_witness :
    (mainRun envWT).2 = exitOK ∧ (mainRun envGeminiWS).2 = exitError :=
  ⟨((c7_single_dispatcher_exit_codes envWT).2.2.2.1).mpr (by decide),
   (c7_single_dispatcher_exit_codes envGeminiWS).2.2.2.2
     (GocoError.git (("git status").toList)
       (("no changes detected").toList) (some GoErr.sentinelGitRepository))
     (by decide)⟩

/-- Claim C8: when the interactive edit reaches the read-back and the edited
content trims to empty, `editCommitMessage` returns the original message
with a nil error; otherwise it returns the trimmed edited content. -/
theorem c8_edit_empty_keeps_original (env : EditEnv) (message content : List Char)
    (h1 : env.createTemp = Except.ok ()) (h2 : env.writeTemp = Except.ok ())
    (h3 : env.closeTemp = Except.ok ()) (h4 : resolveEditor env ≠ [])
    (h5 : env.runEditor = Except.ok ())
    (h6 : env.readTemp = Except.ok content) :
    (goTrimSpace content = [] →
      editCommitMessage env message = Except.ok message) ∧
    (goTrimSpace content ≠ [] →
      editCommitMessage env message = Except.ok (goTrimSpace content)) := by
  constructor
  · intro he
    simp [editCommitMessage, h1, h2, h3, h4, h5, h6, he]
  · intro he
    simp [editCommitMessage, h1, h2, h3, h4, h5, h6, he]

/-- Witness for C8: whitespace-only edited content keeps the original
message. -/
theorem c8_witness :
    editCommitMessage envEditEmpty (("orig").toList) =
      Except.ok (("orig").toList) :=
  (c8_edit_empty_keeps_original envEditEmpty (("orig").toList)
    (("  \n ").toList) rfl rfl rfl (by decide) rfl rfl).1 (by decide)

/-- Claim C9: the staged-file list is obtained with `strings.Fields`, which
splits on arbitrary whitespace: a single staged path built from two
non-whitespace segments around a space yields two entries both in
`getStagedFiles` and in the path list of the StagedOnly `--only` commit, so
that list is not a verbatim reflection of the index for such paths. -/
theorem c9_whitespace_path_splits (a b : List Char) (env : Env)
    (msg : List Char) (paths : List (List Char)) (ha : a ≠ []) (hb : b ≠ [])
    (hna : ∀ c ∈ a, goIsSpace c = false)
    (hnb : ∀ c ∈ b, goIsSpace c = false) :
    getStagedFiles (a ++ ' ' :: b) = [a, b] ∧
    [a, b] ≠ [a ++ ' ' :: b] ∧
    (env.stagedFlag = true →
      env.stagedListAtCommit = Except.ok (a ++ ' ' :: b) →
      Event.gitCmd (commitOnlyArgs msg paths) ∈ (runGenerate env).events →
      paths = [a, b]) := by
  have hf : goFields (goTrimSpace (a ++ ' ' :: b)) = [a, b] := by
    rw [goTrimSpace_pair a b ha hb hna hnb, goFields_pair a b ha hb hna hnb]
  refine ⟨hf, ?_, ?_⟩
  · intro hcon
    simp at hcon
  · intro hs hok hmem
    obtain ⟨out, hout, hp, hne⟩ := commit_event_staged env hs msg paths hmem
    rw [hok] at hout
    rw [Except.ok.injEq] at hout
    subst hout
    rw [hp, hf]

/-- Witness for C9 at the concrete staged path `my file.txt`. -/
theorem c9_witness :
    getStagedFiles ((("my").toList) ++ ' ' :: (("file.txt").toList)) =
      [("my").toList, ("file.txt").toList] :=
  (c9_whitespace_path_splits (("my").toList) (("file.txt").toList)
    envHappyStaged [] [] (by decide) (by decide) (by decide) (by decide)).1

/-- Claim C10 counterexample: the empty-staged failure is dispatched to the
`errors.As` GitError branch of `main`, not to the not-a-repository guidance
branch, because the `errors.As` cases precede the `errors.Is` sentinel
cases; so the claim that it is presented with the not-a-repository guidance
is false. -/
theorem c10_counterexample :
    (runGenerate envEmptyStagedList).result = Except.error emptyStagedErr ∧
    dispatch emptyStagedErr = Branch.git ∧
    Branch.git ≠ Branch.notRepo ∧ Branch.git ≠ Branch.noStaged := by decide

/-- Claim C10 (amended): no run produces an error satisfying `errors.Is`
with `ErrNoStagedFiles`, so the dispatcher branch for that sentinel is
unreachable; the empty commit-time staged listing instead produces a
`GitError` wrapping `ErrGitRepository`, which `main` presents through its
GitError branch. -/
theorem c10_noStagedFiles_unreachable (env : Env) (e : GocoError) :
    ((runGenerate env).result = Except.error e →
      gocoErrIs e GoErr.sentinelNoStagedFiles = false ∧
      dispatch e ≠ Branch.noStaged) ∧
    (env.stagedFlag = true → ∀ out,
      Event.gitCmd stagedListArgs ∈ (runGenerate env).events →
      env.stagedListAtCommit = Except.ok out →
      goFields (goTrimSpace out) = [] →
      (runGenerate env).result = Except.error emptyStagedErr ∧
      dispatch emptyStagedErr = Branch.git) :=
  ⟨result_not_noStaged env e,
   fun hs out hm hok he =>
     ⟨(empty_staged_fails env hs out hm hok he).1, rfl⟩⟩

/-- Witness for the amended C10 at the concrete empty-staged run. -/
theorem c10_witness :
    gocoErrIs emptyStagedErr GoErr.sentinelNoStagedFiles = false ∧
    dispatch emptyStagedErr ≠ Branch.noStaged :=
  (c10_noStagedFiles_unreachable envEmptyStagedList emptyStagedErr).1
    (by decide)
